import Mathlib

/-!
Shallow embedding of src/c/nylon.h (FFI buffer descriptor, dispatch wrapper,
and buffer pool), with theorems checking the specification claims about it.

Modelling conventions:
- C machine integers (uint32_t lengths/counts, pointer addresses) are
  modelled as Nat. No operation in the source can overflow: `count` is
  bounded by `capacity` (itself a uint32 value only copied around), and all
  other fields are only stored and loaded, never computed on.
- The two malloc calls in ffi_buffer_pool_init are modelled by an allocator
  oracle: two Option Nat parameters giving the address each malloc returns,
  none standing for NULL.
- Calls to malloc/free performed by a pool operation are reified as a list
  of MemEvent values returned alongside the result, so that claims about
  what storage an operation frees (or does not free) are statable. A body
  with no malloc/free call returns the empty event list.
- The slot array pool->buffers holds `count` live entries at indices
  0..count-1. It is modelled as the list `slots` with the HEAD at index
  count-1 (the top of the stack): `pool->buffers[pool->count++] = *buffer`
  is a cons, `&pool->buffers[--pool->count]` reads the head.
-/

/-- Descriptor from the source: struct FfiBuffer \x7b const unsigned char *ptr;
uint32_t len; uint32_t capacity; \x7d. Fields are modelled as Nat (an address
and two 32-bit values that are only stored, never computed on). -/
structure FfiBuffer where
  ptr : Nat
  len : Nat
  capacity : Nat
deriving DecidableEq

/-- Heap objects that the pool code allocates or frees: the FfiBufferPool
record itself, the pool->buffers slot array, and the byte storage that an
FfiBuffer value points at (identified by its address). -/
inductive MemObj where
  | poolRecord : MemObj
  | slotArray : MemObj
  | byteStorage : Nat → MemObj
deriving DecidableEq

/-- A malloc or free call performed by an operation of the source. -/
inductive MemEvent where
  | allocEvt : MemObj → MemEvent
  | freeEvt : MemObj → MemEvent
deriving DecidableEq

/-- Pool state from the source: struct FfiBufferPool \x7b FfiBuffer* buffers;
uint32_t count; uint32_t capacity; \x7d. `buffersAddr` is the value of the
`buffers` field (none = NULL, as when its malloc failed). `slots` lists the
`count` live entries of the array, head = index count-1 (top of the LIFO
stack), so `count` is `slots.length`. -/
structure FfiBufferPool where
  buffersAddr : Option Nat
  slots : List FfiBuffer
  capacity : Nat
deriving DecidableEq

/-- The count field of the pool: number of live entries of the slot array. -/
def FfiBufferPool.count (p : FfiBufferPool) : Nat := p.slots.length

/-- A pool value is usable when its buffers pointer is non-NULL: get with
count > 0 and return with count < capacity both dereference pool->buffers. -/
def FfiBufferPool.usable (p : FfiBufferPool) : Bool := p.buffersAddr.isSome

/-- ffi_buffer_pool_init from the source. `m1` is the address malloc returns
for the FfiBufferPool record, `m2` the address malloc returns for the
FfiBuffer slot array (the second malloc runs only when the first succeeded;
when it does not run, the oracle value `m2` is simply unused). When m1 is
NULL the function returns NULL; otherwise it returns the pool record with
buffers = m2 (possibly NULL), count = 0, capacity = initial_capacity. -/
def ffi_buffer_pool_init (initial_capacity : Nat) (m1 m2 : Option Nat) :
    Option FfiBufferPool :=
  match m1 with
  | none => none
  | some _ => some { buffersAddr := m2, slots := [], capacity := initial_capacity }

/-- ffi_buffer_pool_get from the source: if count > 0, return a pointer to
buffers[--count] (modelled as the descriptor value at the top of the stack)
and pop it; otherwise return NULL. The body contains no malloc or free call,
so the event list is empty in both branches. -/
def ffi_buffer_pool_get (pool : FfiBufferPool) :
    Option FfiBuffer × FfiBufferPool × List MemEvent :=
  if 0 < pool.count then
    (pool.slots.head?, { pool with slots := pool.slots.tail }, [])
  else
    (none, pool, [])

/-- ffi_buffer_pool_return from the source: if count < capacity, store the
descriptor at buffers[count++] (a push); otherwise do nothing. The body
contains no malloc or free call, so the event list is empty in both
branches: in particular the full-pool branch does NOT free the buffer. -/
def ffi_buffer_pool_return (pool : FfiBufferPool) (buffer : FfiBuffer) :
    FfiBufferPool × List MemEvent :=
  if pool.count < pool.capacity then
    ({ pool with slots := buffer :: pool.slots }, [])
  else
    (pool, [])

/-- ffi_buffer_pool_free from the source: if (pool) \x7b free(pool->buffers);
free(pool); \x7d. On a NULL handle nothing happens; otherwise exactly the slot
array and the pool record are freed — the body never touches the byte
storage the stored descriptors point at. -/
def ffi_buffer_pool_free (pool : Option FfiBufferPool) : List MemEvent :=
  match pool with
  | none => []
  | some _ => [MemEvent.freeEvt MemObj.slotArray, MemEvent.freeEvt MemObj.poolRecord]

/-- call_event_method from the source: cb(session_id, method, data), a plain
synchronous pass-through of the three arguments. The callback is modelled
with a result type α so that what the handler observes can be stated; the
body performs no computation of its own (no copy, no allocation). -/
def call_event_method {α : Type} (cb : Nat → Nat → FfiBuffer → α)
    (session_id method : Nat) (data : FfiBuffer) : α :=
  cb session_id method data

/-- Bytes a reader observes at addresses ptr..ptr+len-1 of a memory `mem`
(used to state that the handler sees the byte contents the producer wrote,
since the descriptor carries the same ptr across the call). -/
def readBytes (mem : Nat → Nat) (ptr len : Nat) : List Nat :=
  (List.range len).map fun i => mem (ptr + i)

/-- One pool operation of the external surface: an acquire or a release. -/
inductive PoolOp where
  | get : PoolOp
  | ret : FfiBuffer → PoolOp
deriving DecidableEq

/-- State transition of one pool operation (events and get results dropped). -/
def step (p : FfiBufferPool) : PoolOp → FfiBufferPool
  | PoolOp.get => (ffi_buffer_pool_get p).2.1
  | PoolOp.ret b => (ffi_buffer_pool_return p b).1

/-- Pool state after a sequence of acquire/release calls. -/
def run (p : FfiBufferPool) (ops : List PoolOp) : FfiBufferPool :=
  ops.foldl step p

/-- State after releasing each descriptor of `bs`, in order. -/
def releaseAll (p : FfiBufferPool) (bs : List FfiBuffer) : FfiBufferPool :=
  bs.foldl (fun q b => (ffi_buffer_pool_return q b).1) p

/-- Results and final state of `n` successive acquires. -/
def acquireAll : FfiBufferPool → Nat → List (Option FfiBuffer) × FfiBufferPool
  | p, 0 => ([], p)
  | p, n + 1 =>
    let r := ffi_buffer_pool_get p
    let rest := acquireAll r.2.1 n
    (r.1 :: rest.1, rest.2)

/-- Field layout (name, bit width) of the FfiBuffer struct as declared in
the source, in declaration order; `addrWidth` is the native pointer width. -/
def ffiBufferFieldLayout (addrWidth : Nat) : List (String × Nat) :=
  [("ptr", addrWidth), ("len", 32), ("capacity", 32)]

/-- Parameter layout (name, bit width) of the data_event_fn callback type as
declared in the source, in order; the third parameter is a pointer. -/
def dataEventParamLayout (addrWidth : Nat) : List (String × Nat) :=
  [("session_id", 32), ("method", 32), ("data", addrWidth)]

/-- Descriptor layout exactly as the ABI section of the specification words
it, for comparison with the layout of the source. -/
def specDescriptorLayout (addrWidth : Nat) : List (String × Nat) :=
  [("session_id", 32), ("phase", 8), ("method", 32), ("pointer", addrWidth),
   ("length", 64), ("capacity", 64)]

/-! Helper lemmas shared by the claim theorems. -/

theorem return_fst_capacity (p : FfiBufferPool) (b : FfiBuffer) :
    ((ffi_buffer_pool_return p b).1).capacity = p.capacity := by
  unfold ffi_buffer_pool_return
  split <;> rfl

theorem return_fst_buffersAddr (p : FfiBufferPool) (b : FfiBuffer) :
    ((ffi_buffer_pool_return p b).1).buffersAddr = p.buffersAddr := by
  unfold ffi_buffer_pool_return
  split <;> rfl

theorem get_state_capacity (p : FfiBufferPool) :
    ((ffi_buffer_pool_get p).2.1).capacity = p.capacity := by
  unfold ffi_buffer_pool_get
  split <;> rfl

theorem get_state_buffersAddr (p : FfiBufferPool) :
    ((ffi_buffer_pool_get p).2.1).buffersAddr = p.buffersAddr := by
  unfold ffi_buffer_pool_get
  split <;> rfl

theorem step_capacity (p : FfiBufferPool) (op : PoolOp) :
    (step p op).capacity = p.capacity := by
  cases op with
  | get => exact get_state_capacity p
  | ret b => exact return_fst_capacity p b

theorem step_buffersAddr (p : FfiBufferPool) (op : PoolOp) :
    (step p op).buffersAddr = p.buffersAddr := by
  cases op with
  | get => exact get_state_buffersAddr p
  | ret b => exact return_fst_buffersAddr p b

theorem run_capacity (ops : List PoolOp) (p : FfiBufferPool) :
    (run p ops).capacity = p.capacity := by
  induction ops generalizing p with
  | nil => rfl
  | cons op ops ih =>
    show (run (step p op) ops).capacity = p.capacity
    rw [ih (step p op), step_capacity]

theorem run_buffersAddr (ops : List PoolOp) (p : FfiBufferPool) :
    (run p ops).buffersAddr = p.buffersAddr := by
  induction ops generalizing p with
  | nil => rfl
  | cons op ops ih =>
    show (run (step p op) ops).buffersAddr = p.buffersAddr
    rw [ih (step p op), step_buffersAddr]

theorem step_count_le (p : FfiBufferPool) (op : PoolOp)
    (h : p.count ≤ p.capacity) : (step p op).count ≤ (step p op).capacity := by
  cases op with
  | get =>
    show ((ffi_buffer_pool_get p).2.1).count ≤ ((ffi_buffer_pool_get p).2.1).capacity
    unfold ffi_buffer_pool_get
    split
    · simp only [FfiBufferPool.count, List.length_tail] at *
      omega
    · exact h
  | ret b =>
    show ((ffi_buffer_pool_return p b).1).count ≤ ((ffi_buffer_pool_return p b).1).capacity
    unfold ffi_buffer_pool_return
    split
    · rename_i hlt
      simp only [FfiBufferPool.count, List.length_cons] at *
      omega
    · exact h

theorem run_count_le (ops : List PoolOp) (p : FfiBufferPool)
    (h : p.count ≤ p.capacity) : (run p ops).count ≤ (run p ops).capacity := by
  induction ops generalizing p with
  | nil => exact h
  | cons op ops ih =>
    show (run (step p op) ops).count ≤ (run (step p op) ops).capacity
    exact ih (step p op) (step_count_le p op h)

theorem releaseAll_eq (bs : List FfiBuffer) (p : FfiBufferPool)
    (h : p.count + bs.length ≤ p.capacity) :
    releaseAll p bs = { p with slots := bs.reverse ++ p.slots } := by
  induction bs generalizing p with
  | nil =>
    show p = { p with slots := [] ++ p.slots }
    simp
  | cons b rest ih =>
    have hlt : p.count < p.capacity := by
      simp only [List.length_cons] at h
      omega
    show releaseAll ((ffi_buffer_pool_return p b).1) rest =
      { p with slots := (b :: rest).reverse ++ p.slots }
    rw [ffi_buffer_pool_return, if_pos hlt]
    rw [ih { p with slots := b :: p.slots }
      (by simp only [FfiBufferPool.count, List.length_cons] at *; omega)]
    simp

theorem acquireAll_eq (l : List FfiBuffer) (p : FfiBufferPool)
    (h : p.slots = l) :
    acquireAll p l.length = (l.map some, { p with slots := [] }) := by
  induction l generalizing p with
  | nil =>
    show ([], p) = ([], { p with slots := [] })
    rw [← h]
  | cons b rest ih =>
    have hpos : 0 < p.count := by
      simp [FfiBufferPool.count, h]
    show ((ffi_buffer_pool_get p).1 ::
        (acquireAll ((ffi_buffer_pool_get p).2.1) rest.length).1,
        (acquireAll ((ffi_buffer_pool_get p).2.1) rest.length).2) =
      ((b :: rest).map some, { p with slots := [] })
    rw [ffi_buffer_pool_get, if_pos hpos]
    simp only [h, List.head?_cons, List.tail_cons]
    rw [ih { p with slots := rest } rfl]
    simp

/-! Claim theorems. -/

/-- Claim C1, counterexample: the claim quantifies over every pool of
capacity N, but for a pool that already holds a slot the LIFO law fails.
A capacity-1 pool holding the descriptor (1,1,1): releasing (2,1,1) is
dropped (pool full), so the single acquire returns (1,1,1), not the reverse
[(2,1,1)] of the release order. -/
theorem c1_counterexample :
    (acquireAll (releaseAll
        { buffersAddr := some 10, slots := [⟨1, 1, 1⟩], capacity := 1 }
        [⟨2, 1, 1⟩]) 1).1
      ≠ ([(⟨2, 1, 1⟩ : FfiBuffer)].reverse).map some := by
  decide

/-- Claim C1 (amended: the pool starts with zero slots held): for a pool of
capacity N holding nothing, an acquire returns empty; after releasing the N
descriptors of bs in order, N acquires return exactly the reverse of bs;
the pool is then empty again and one more acquire returns empty. -/
theorem c1_lifo (p : FfiBufferPool) (bs : List FfiBuffer)
    (hempty : p.slots = []) (hcap : p.capacity = bs.length) :
    (ffi_buffer_pool_get p).1 = none ∧
    (acquireAll (releaseAll p bs) bs.length).1 = bs.reverse.map some ∧
    (acquireAll (releaseAll p bs) bs.length).2.slots = [] ∧
    (ffi_buffer_pool_get (acquireAll (releaseAll p bs) bs.length).2).1 = none := by
  have hcount : p.count = 0 := by simp [FfiBufferPool.count, hempty]
  have hrel : releaseAll p bs = { p with slots := bs.reverse ++ p.slots } :=
    releaseAll_eq bs p (by omega)
  have hslots : (releaseAll p bs).slots = bs.reverse := by
    rw [hrel, hempty]
    simp
  have hacq := acquireAll_eq bs.reverse (releaseAll p bs) hslots
  rw [List.length_reverse] at hacq
  refine ⟨?_, ?_, ?_, ?_⟩
  · rw [ffi_buffer_pool_get, if_neg (by omega)]
  · rw [hacq]
  · rw [hacq]
  · rw [hacq, ffi_buffer_pool_get, if_neg (by simp [FfiBufferPool.count])]

/-- Claim C1, witness: the end-to-end scenario at capacity 2 with two
distinct descriptors A and B: acquire empty, release A, release B, acquire
B, acquire A, acquire empty. -/
theorem c1_witness :
    (ffi_buffer_pool_get
        { buffersAddr := some 10, slots := [], capacity := 2 }).1 = none ∧
    (acquireAll (releaseAll
        { buffersAddr := some 10, slots := [], capacity := 2 }
        [⟨100, 4, 8⟩, ⟨200, 5, 8⟩]) 2).1
      = [some ⟨200, 5, 8⟩, some ⟨100, 4, 8⟩] ∧
    (acquireAll (releaseAll
        { buffersAddr := some 10, slots := [], capacity := 2 }
        [⟨100, 4, 8⟩, ⟨200, 5, 8⟩]) 2).2.slots = [] ∧
    (ffi_buffer_pool_get (acquireAll (releaseAll
        { buffersAddr := some 10, slots := [], capacity := 2 }
        [⟨100, 4, 8⟩, ⟨200, 5, 8⟩]) 2).2).1 = none :=
  c1_lifo { buffersAddr := some 10, slots := [], capacity := 2 }
    [⟨100, 4, 8⟩, ⟨200, 5, 8⟩] rfl rfl

/-- Claim C2, counterexample: release on a full pool does NOT free the byte
storage of the released descriptor — the body of ffi_buffer_pool_return
contains no free call, so no free event for address 100 is emitted. -/
theorem c2_counterexample :
    MemEvent.freeEvt (MemObj.byteStorage 100) ∉
      (ffi_buffer_pool_return
        { buffersAddr := some 50, slots := [⟨7, 1, 1⟩], capacity := 1 }
        ⟨100, 4, 8⟩).2 := by
  decide

/-- Claim C2 (amended: release on a full pool leaves the pool completely
unchanged, so the slot is not stored and not retrievable, but nothing is
freed — the storage is silently leaked as far as the pool is concerned). -/
theorem c2_release_full (p : FfiBufferPool) (b : FfiBuffer)
    (h : p.count = p.capacity) :
    ffi_buffer_pool_return p b = (p, ([] : List MemEvent)) := by
  rw [ffi_buffer_pool_return, if_neg (by omega)]

/-- Claim C2, witness: a concrete full pool of capacity 1. -/
theorem c2_witness :
    ({ buffersAddr := some 50, slots := [⟨7, 1, 1⟩], capacity := 1 } :
        FfiBufferPool).count =
      ({ buffersAddr := some 50, slots := [⟨7, 1, 1⟩], capacity := 1 } :
        FfiBufferPool).capacity ∧
    ffi_buffer_pool_return
        { buffersAddr := some 50, slots := [⟨7, 1, 1⟩], capacity := 1 }
        ⟨100, 4, 8⟩
      = ({ buffersAddr := some 50, slots := [⟨7, 1, 1⟩], capacity := 1 },
         ([] : List MemEvent)) :=
  ⟨rfl, c2_release_full _ _ rfl⟩

/-- Claim C3, counterexample: destroying a pool that holds a descriptor
whose byte storage is at address 100 does not free that storage: the only
free calls in ffi_buffer_pool_free are free(pool->buffers) and free(pool). -/
theorem c3_counterexample :
    MemEvent.freeEvt (MemObj.byteStorage 100) ∉
      ffi_buffer_pool_free
        (some { buffersAddr := some 50, slots := [⟨100, 4, 8⟩], capacity := 2 }) := by
  decide

/-- Claim C3 (amended: destroy frees exactly the bookkeeping — the slot
array and the pool record — and never the byte storage referenced by the
held descriptors). -/
theorem c3_free_bookkeeping (p : FfiBufferPool) :
    ffi_buffer_pool_free (some p) =
      [MemEvent.freeEvt MemObj.slotArray, MemEvent.freeEvt MemObj.poolRecord] ∧
    ∀ a : Nat, MemEvent.freeEvt (MemObj.byteStorage a) ∉ ffi_buffer_pool_free (some p) := by
  refine ⟨rfl, fun a => ?_⟩
  simp [ffi_buffer_pool_free]

/-- Claim C4, counterexample: when the pool-record malloc succeeds (address
1) but the slot-array malloc fails (NULL), init returns a NON-null pool
whose buffers pointer is NULL — not valid for use — refuting both the
"exactly when" and the "non-null is always valid" parts of the claim. -/
theorem c4_counterexample :
    ffi_buffer_pool_init 4 (some 1) none =
      some { buffersAddr := none, slots := [], capacity := 4 } ∧
    ({ buffersAddr := none, slots := [], capacity := 4 } :
      FfiBufferPool).usable = false := by
  exact ⟨rfl, rfl⟩

/-- Claim C4 (amended: init returns NULL exactly when the allocation of the
pool record itself fails; whenever the record allocation succeeds the
returned pool has capacity N, zero slots held, and a buffers pointer equal
to whatever the second malloc returned — so it is usable only when the
slot-array allocation also succeeded). -/
theorem c4_init_result (N : Nat) (m1 m2 : Option Nat) :
    ((ffi_buffer_pool_init N m1 m2 = none) ↔ m1 = none) ∧
    (∀ a : Nat, m1 = some a →
      ffi_buffer_pool_init N m1 m2 =
        some { buffersAddr := m2, slots := [], capacity := N } ∧
      ({ buffersAddr := m2, slots := [], capacity := N } :
        FfiBufferPool).usable = m2.isSome) := by
  cases m1 with
  | none => simp [ffi_buffer_pool_init]
  | some a => simp [ffi_buffer_pool_init, FfiBufferPool.usable]

/-- Claim C4, witness: both mallocs succeed at capacity 3. -/
theorem c4_witness :
    ffi_buffer_pool_init 3 (some 1) (some 2) =
      some { buffersAddr := some 2, slots := [], capacity := 3 } ∧
    ({ buffersAddr := some 2, slots := [], capacity := 3 } :
      FfiBufferPool).usable = (some 2 : Option Nat).isSome :=
  (c4_init_result 3 (some 1) (some 2)).2 1 rfl

/-- Claim C5: for any pool returned by init and any interleaving of acquire
and release calls, the count of held slots never exceeds the configured
capacity N. -/
theorem c5_count_le_capacity (N : Nat) (m1 m2 : Option Nat)
    (p : FfiBufferPool) (h : ffi_buffer_pool_init N m1 m2 = some p)
    (ops : List PoolOp) : (run p ops).count ≤ N := by
  cases m1 with
  | none => exact absurd h (by simp [ffi_buffer_pool_init])
  | some a =>
    have hp : p = { buffersAddr := m2, slots := [], capacity := N } := by
      simpa [ffi_buffer_pool_init] using h.symm
    have h0 : p.count ≤ p.capacity := by
      simp [hp, FfiBufferPool.count]
    have hle := run_count_le ops p h0
    rw [run_capacity, hp] at hle
    rw [hp]
    exact hle

/-- Claim C5, witness: capacity 2, three releases and one acquire. -/
theorem c5_witness :
    (run { buffersAddr := some 2, slots := [], capacity := 2 }
      [PoolOp.ret ⟨1, 1, 1⟩, PoolOp.ret ⟨2, 1, 1⟩, PoolOp.ret ⟨3, 1, 1⟩,
       PoolOp.get]).count ≤ 2 :=
  c5_count_le_capacity 2 (some 1) (some 2) _ rfl _

/-- Claim C6: acquire on a pool with count = 0 returns NULL, leaves the pool
unchanged, and performs no allocation (and no free): the returned result is
empty, the state is the input state, and the memory event list is empty. -/
theorem c6_get_empty (p : FfiBufferPool) (h : p.count = 0) :
    ffi_buffer_pool_get p = (none, p, ([] : List MemEvent)) := by
  rw [ffi_buffer_pool_get, if_neg (by omega)]

/-- Claim C6, witness: an empty pool of capacity 5. -/
theorem c6_witness :
    ({ buffersAddr := some 3, slots := [], capacity := 5 } :
        FfiBufferPool).count = 0 ∧
    ffi_buffer_pool_get { buffersAddr := some 3, slots := [], capacity := 5 }
      = (none, { buffersAddr := some 3, slots := [], capacity := 5 },
         ([] : List MemEvent)) :=
  ⟨rfl, c6_get_empty _ rfl⟩

/-- Claim C7, counterexample: the descriptor struct of the source has layout
(ptr, len:32, capacity:32) — it does not match the layout the claim states,
and in particular carries no phase field. -/
theorem c7_counterexample :
    ffiBufferFieldLayout 64 ≠ specDescriptorLayout 64 ∧
    "phase" ∉ (ffiBufferFieldLayout 64).map Prod.fst := by
  refine ⟨by decide, by decide⟩

/-- Claim C7 (amended: the descriptor that crosses the boundary has, in
order, ptr (native-width address), len (unsigned 32-bit), capacity
(unsigned 32-bit); session_id and method are separate unsigned 32-bit
callback parameters; no phase field exists anywhere in the interface). -/
theorem c7_descriptor_layout (w : Nat) :
    ffiBufferFieldLayout w = [("ptr", w), ("len", 32), ("capacity", 32)] ∧
    dataEventParamLayout w = [("session_id", 32), ("method", 32), ("data", w)] ∧
    "phase" ∉ (ffiBufferFieldLayout w).map Prod.fst ∧
    "phase" ∉ (dataEventParamLayout w).map Prod.fst := by
  refine ⟨rfl, rfl, ?_, ?_⟩ <;> simp [ffiBufferFieldLayout, dataEventParamLayout]

/-- Claim C8, counterexample: the dispatch path carries no phase at all —
neither the callback parameters nor the descriptor fields include one — so
a handler cannot observe the phase value (DATA) of the claim. -/
theorem c8_counterexample :
    "phase" ∉ (dataEventParamLayout 64).map Prod.fst ++
      (ffiBufferFieldLayout 64).map Prod.fst := by
  decide

/-- Claim C8 (amended: with no phase in the interface, dispatch is a pure
synchronous pass-through: the handler is invoked with exactly the
session_id, method and descriptor the producer supplied, hence observes the
same length, capacity and byte contents through the same pointer — no copy
and no allocation; concretely for session_id 7, method 3, a descriptor
(ptr 1000, len 10, capacity 16) and the payload bytes of "0123456789"). -/
theorem c8_dispatch_passthrough :
    (∀ (α : Type) (cb : Nat → Nat → FfiBuffer → α) (sid m : Nat) (d : FfiBuffer),
      call_event_method cb sid m d = cb sid m d) ∧
    (∀ (mem : Nat → Nat) (sid m : Nat) (d : FfiBuffer),
      call_event_method
        (fun s mth buf => (s, mth, buf, readBytes mem buf.ptr buf.len)) sid m d
      = (sid, m, d, readBytes mem d.ptr d.len)) ∧
    call_event_method
        (fun s mth buf => (s, mth, buf.len, buf.capacity,
          readBytes (fun i => 48 + (i - 1000)) buf.ptr buf.len))
        7 3 ⟨1000, 10, 16⟩
      = (7, 3, 10, 16, [48, 49, 50, 51, 52, 53, 54, 55, 56, 57]) := by
  refine ⟨fun α cb sid m d => rfl, fun mem sid m d => rfl, ?_⟩
  decide

/-- Claim C9: destroying a NULL pool handle is a safe no-op — the NULL case
is guarded in the source, nothing is dereferenced and nothing is freed. -/
theorem c9_free_null_noop : ffi_buffer_pool_free none = ([] : List MemEvent) :=
  rfl

/-- Claim C10: for a pool returned by init with capacity N, any sequence of
acquire and release calls leaves the capacity field equal to N and the
buffers pointer unchanged: the operations modify only the count and the
slot array contents. -/
theorem c10_frame (N : Nat) (m1 m2 : Option Nat) (p : FfiBufferPool)
    (h : ffi_buffer_pool_init N m1 m2 = some p) (ops : List PoolOp) :
    (run p ops).capacity = N ∧ (run p ops).buffersAddr = p.buffersAddr := by
  cases m1 with
  | none => exact absurd h (by simp [ffi_buffer_pool_init])
  | some a =>
    have hp : p = { buffersAddr := m2, slots := [], capacity := N } := by
      simpa [ffi_buffer_pool_init] using h.symm
    refine ⟨?_, run_buffersAddr ops p⟩
    rw [run_capacity, hp]

/-- Claim C10, witness: capacity 2, a release, an acquire and a release. -/
theorem c10_witness :
    (run { buffersAddr := some 9, slots := [], capacity := 2 }
        [PoolOp.ret ⟨1, 1, 1⟩, PoolOp.get, PoolOp.ret ⟨2, 2, 2⟩]).capacity = 2 ∧
    (run { buffersAddr := some 9, slots := [], capacity := 2 }
        [PoolOp.ret ⟨1, 1, 1⟩, PoolOp.get, PoolOp.ret ⟨2, 2, 2⟩]).buffersAddr
      = ({ buffersAddr := some 9, slots := [], capacity := 2 } :
          FfiBufferPool).buffersAddr :=
  c10_frame 2 (some 1) (some 9) _ rfl _
